import Mathlib

set_option maxRecDepth 100000

/-!
Shallow embedding of the deepfake-audio detection pipeline (src/app.py):
the feature extractor create_spectrogram, the classifier adapter
predictions, the perturbation explainer lime_predict, the gradient
explainer grad_predict, and the orchestrator homepage.

Numeric values are modelled as rationals.  External library calls
(librosa, matplotlib, PIL, the keras models, the lime library, the VGG16
reference network) are modelled as explicit function parameters or
structure fields, so that every theorem quantifies over conforming
instances of those external components; everything the repository code
itself does (ordering of steps, normalisation, arg-max, indexing,
short-circuiting) is translated concretely.
-/

/-- Error kinds observable from the python code: exceptions raised by the
functions of src/app.py or by the libraries they call. -/
inductive AppError
  | fileNotFound
  | valueError
  | indexError
  | invalidArgument
  | segmentationError
deriving DecidableEq, Repr

/-- Boolean test that an Except value is a success. -/
def exOk {α : Type} (e : Except AppError α) : Bool :=
  match e with
  | .ok _ => true
  | .error _ => false

/-- One RGB pixel: three colour channels, as in the three-channel images
the pipeline passes around. -/
structure RGB where
  r : ℚ
  g : ℚ
  b : ℚ
deriving DecidableEq, Repr

/-- Images as row-major lists of RGB pixels. -/
abbrev Image := List (List RGB)

/-- Raw waveform plus sampling rate, as returned by librosa.load. -/
structure AudioData where
  samples : List ℚ
  sr : ℤ
deriving DecidableEq, Repr

/-- State touched by create_spectrogram: the audio_files directory written
by save_file (a map from path to decoded audio) and the scratch file
melspectrogram.png that the function overwrites and reads back. -/
structure SpecState where
  fs : String → Option AudioData
  scratch : Option (List (List RGB))

/-- Fixed transform parameters of the feature extractor: the external
librosa mel-spectrogram transform, the elementwise power-to-db rescaling
(value and reference maximum), and the matplotlib colormap used by
specshow to render a scalar matrix as RGB pixels. -/
structure SpecParams where
  melspec : List ℚ → ℤ → List (List ℚ)
  db : ℚ → ℚ → ℚ
  cmap : ℚ → RGB

/-- Maximum entry of a matrix, as np.max and tf.reduce_max compute it on a
nonempty array; on an empty matrix it returns 0 (the python call raises
instead, which the embedding checks separately where it matters). -/
def matMax (m : List (List ℚ)) : ℚ :=
  m.flatten.foldl max (m.flatten.headD 0)

/-- Nearest-neighbour resampling of a row-major raster to h times w,
modelling the deterministic image resizing done by PIL load_img with
target_size and by cv2.resize: the output always has exactly h rows of w
entries, sampled from the source raster. -/
def resizeNN {α : Type} (src : List (List α)) (h w : ℕ) (d : α) : List (List α) :=
  (List.range h).map (fun i =>
    let srcRow := src.getD (i * src.length / h) []
    (List.range w).map (fun j => srcRow.getD (j * srcRow.length / w) d))

/-- Model of save_file (src/app.py lines 17-21): writes the uploaded
audio into audio_files slash name. -/
def save_file (st : SpecState) (name : String) (a : AudioData) : SpecState :=
  { st with fs := fun p => if p = "audio_files/" ++ name then some a else st.fs p }

/-- Model of create_spectrogram (src/app.py lines 23-41): reads the audio
file, computes the mel spectrogram, rescales with power_to_db referenced
to the matrix maximum, renders the matrix with the colormap, writes the
scratch file melspectrogram.png, reads it back and resizes to 224 times
224.  The function performs no validation of the waveform or sampling
rate; the only failures are the file being absent and np.max raising on
an empty spectrogram. -/
def create_spectrogram (p : SpecParams) (st : SpecState) (sound : String) :
    Except AppError (SpecState × Image) :=
  match st.fs ("audio_files/" ++ sound) with
  | none => .error .fileNotFound
  | some a =>
    let ms := p.melspec a.samples a.sr
    if (ms.map List.length).sum = 0 then .error .valueError
    else
      let ref := matMax ms
      let log_ms := ms.map (fun row => row.map (fun v => p.db v ref))
      let rendered := log_ms.map (fun row => row.map p.cmap)
      let st' := { st with scratch := some rendered }
      match st'.scratch with
      | none => .error .fileNotFound
      | some img => .ok (st', resizeNN img 224 224 ⟨0, 0, 0⟩)

/-- The image returned by create_spectrogram, discarding the state. -/
def specResult (p : SpecParams) (st : SpecState) (sound : String) :
    Except AppError Image :=
  (create_spectrogram p st sound).map Prod.snd

/-- A classifier backend behind model.predict: maps a batch of images to a
batch of score vectors. -/
structure KModel where
  predict : List Image → List (List ℚ)

/-- Pixelwise division by 255 of an image, the only preprocessing
predictions and lime_predict apply (src/app.py lines 44-45, 52-53). -/
def normImage (img : Image) : Image :=
  img.map (fun row => row.map (fun px => ⟨px.r / 255, px.g / 255, px.b / 255⟩))

/-- The batch of size 1 built by np.expand_dims around the normalised
image (src/app.py lines 46, 54). -/
def inputBatch (img : Image) : List Image :=
  [normImage img]

/-- Scanning argmax over a list, as np.argmax: keeps the first index whose
value is strictly greater than the best so far, so ties resolve to the
lowest index.  Arguments: remaining list, index of its head, best index so
far, best value so far. -/
def argmaxGo : List ℚ → ℕ → ℕ → ℚ → ℕ
  | [], _, best, _ => best
  | v :: rest, i, best, bv =>
    if bv < v then argmaxGo rest (i + 1) i v else argmaxGo rest (i + 1) best bv

/-- First index of the maximum of a list, as np.argmax on a nonempty
flattened array. -/
def argmaxIdx : List ℚ → ℕ
  | [] => 0
  | v :: rest => argmaxGo rest 1 0 v

/-- The fixed class vocabulary (src/app.py line 15). -/
def class_names : List String := ["real", "fake"]

/-- Model of predictions (src/app.py lines 43-49): divide pixels by 255,
batch the single image, run model.predict, return the argmax label with
the raw prediction.  np.argmax raises on an empty array, modelled by the
valueError branch. -/
def predictions (image_data : Image) (model : KModel) :
    Except AppError (ℕ × List (List ℚ)) :=
  let prediction := model.predict (inputBatch image_data)
  if prediction.flatten.isEmpty then .error .valueError
  else .ok (argmaxIdx prediction.flatten, prediction)

/-- Result of the lime library explain_instance call: the superpixel
segmentation region ids and, per class label, the fitted local surrogate
as a list of pairs of region id and signed weight, sorted by the library
by decreasing absolute weight.  The lime library fits one coefficient per
segmentation region, so every region id appearing in local_exp is a
region id of the segmentation; exp_mem records that structural invariant
of the library output. -/
structure LimeExplanation where
  segments : List ℕ
  local_exp : ℕ → List (ℕ × ℚ)
  exp_mem : ∀ lbl p, p ∈ local_exp lbl → p.1 ∈ segments

/-- The label that lime_predict recomputes at src/app.py line 65 to choose
the class to explain: np.argmax of model.predict on the same divided-by-255
batch of size one that predictions builds. -/
def lime_class_label (image_data : Image) (model : KModel) :
    Except AppError ℕ :=
  let flat := (model.predict (inputBatch image_data)).flatten
  if flat.isEmpty then .error .valueError
  else .ok (argmaxIdx flat)

/-- Model of lime_predict (src/app.py lines 51-80): normalise the image,
run the external lime explainer (which may itself fail, e.g. on a
degenerate segmentation), recompute the class label, take the first
num_features equal 8 entries of the local explanation for that label as
the mask regions (lime get_image_and_mask with positive_only false), and
label the figure with class_names at the label, which raises IndexError
when the label is outside the vocabulary.  Returns the label and the mask
region ids. -/
def lime_predict (image_data : Image) (model : KModel)
    (explFn : Image → Except AppError LimeExplanation) :
    Except AppError (ℕ × List ℕ) :=
  let img_array1 := normImage image_data
  match explFn img_array1 with
  | .error e => .error e
  | .ok explanation =>
    match lime_class_label image_data model with
    | .error e => .error e
    | .ok class_label =>
      let mask := ((explanation.local_exp class_label).take 8).map Prod.fst
      if class_label < class_names.length then .ok (class_label, mask)
      else .error .indexError

/-- The external VGG16 reference network used by grad_predict: the
vgg16 preprocess_input transform, the designated block5_conv3 activation
tensor (spatial rows times columns times channels, batch element 0), the
final class-score vector (1000 ImageNet classes), and the gradient of the
score at a class index with respect to the activation tensor, computed by
the external automatic differentiation. -/
structure GradModel where
  preprocess : Image → Image
  convOut : Image → List (List (List ℚ))
  preds : Image → List ℚ
  gradTape : Image → ℕ → List (List (List ℚ))

/-- Number of channels of an activation tensor. -/
def channelCount (g : List (List (List ℚ))) : ℕ :=
  ((g.headD []).headD []).length

/-- tf.reduce_mean of the gradient tensor over the batch and both spatial
axes (src/app.py line 97): one importance weight per channel. -/
def pooledGrads (g : List (List (List ℚ))) : List ℚ :=
  let n : ℚ := ((g.map List.length).sum : ℕ)
  (List.range (channelCount g)).map (fun c =>
    (g.map (fun row => (row.map (fun px => px.getD c 0)).sum)).sum / n)

/-- The matrix product of the activation tensor with the pooled gradient
vector (src/app.py lines 100-101): per spatial position, the
channel-weighted sum of activations. -/
def weightedSum (conv : List (List (List ℚ))) (w : List ℚ) : List (List ℚ) :=
  conv.map (fun row => row.map (fun px => (List.zipWith (fun a b => a * b) px w).sum))

/-- The heatmap before normalisation, as computed from the reference
network activations and gradients at the preprocessed image. -/
def rawHeatmap (gm : GradModel) (image_data : Image) (class_idx : ℕ) :
    List (List ℚ) :=
  let x := gm.preprocess image_data
  weightedSum (gm.convOut x) (pooledGrads (gm.gradTape x class_idx))

/-- The normalisation step of src/app.py line 102: clamp each value at
zero and divide by the maximum of the unclamped heatmap.  In IEEE floats
the division zero by zero yields NaN; when the maximum is exactly zero
every clamped entry is zero, so every entry becomes NaN, modelled here as
none.  When the maximum is negative every clamped entry is zero and the
quotient is zero. -/
def normalizeHeatmap (m : List (List ℚ)) : List (List (Option ℚ)) :=
  m.map (fun row => row.map (fun v =>
    if matMax m = 0 then none else some (max v 0 / matMax m)))

/-- Model of grad_predict (src/app.py lines 82-123): preprocess the image
for VGG16, run the forward pass, select the score of class_idx (an
out-of-range gather raises, modelled as invalidArgument), differentiate,
pool the gradients, form and normalise the heatmap, resize it with cv2 to
the spatial size of the preprocessed input, and finally label the figure
with class_names at class_idx, which raises IndexError when class_idx is
outside the vocabulary.  Returns the resized normalised heatmap, whose
none entries model NaN values.  The preds0 argument mirrors the unused
preds parameter of the python function, which is shadowed before use. -/
def grad_predict (gm : GradModel) (image_data : Image)
    (preds0 : List (List ℚ)) (class_idx : ℕ) :
    Except AppError (List (List (Option ℚ))) :=
  let x := gm.preprocess image_data
  let p := gm.preds x
  if class_idx < p.length then
    let heatmap := normalizeHeatmap (rawHeatmap gm image_data class_idx)
    let resized := resizeNN heatmap x.length ((x.headD []).length) none
    if class_idx < class_names.length then .ok resized
    else .error .indexError
  else .error .invalidArgument

/-- Display events emitted by the streamlit calls of homepage, in order. -/
inductive Event
  | line
  | subheaderChoose
  | playAudio
  | audioPlayer
  | specImage
  | classHeader
  | classification (lbl : ℕ)
  | limeHeader
  | limeFig
  | gradHeader
  | gradFig
  | infoUpload
  | errorLoadModel (msg : String)
deriving DecidableEq, Repr

/-- How a homepage run ends: normally, by st.stop, or by an uncaught
exception of the given kind (streamlit keeps the already-rendered events
in both abnormal cases). -/
inductive Outcome
  | done
  | stopped
  | raised (e : AppError)
deriving DecidableEq, Repr

/-- The external inputs of one homepage run: the uploaded file (name and
decoded audio) if any, the outcome of tf.keras.models.load_model, the
state of the Show XAI Metrics button, the filesystem state, the fixed
feature-extractor parameters, the lime explainer and the VGG16 reference
network. -/
structure Env where
  uploaded : Option (String × AudioData)
  modelResult : Except String KModel
  buttonClicked : Bool
  specState : SpecState
  specParams : SpecParams
  explainer : Image → Except AppError LimeExplanation
  gradModel : GradModel

/-- Model of homepage (src/app.py lines 141-177): render the header, stop
with an info message when nothing is uploaded, otherwise save the file,
load the model (on failure show the error and st.stop), compute the
spectrogram, classify, report the classification, and when the button is
pressed run lime_predict and then grad_predict.  Any component failure
propagates as an uncaught exception carrying its kind; events already
rendered are kept. -/
def homepage (env : Env) : List Event × Outcome :=
  let ev0 := [Event.line, Event.subheaderChoose]
  match env.uploaded with
  | none => (ev0 ++ [Event.infoUpload], Outcome.done)
  | some (name, audio) =>
    let ev1 := ev0 ++ [Event.playAudio, Event.audioPlayer]
    let st1 := save_file env.specState name audio
    match env.modelResult with
    | .error e => (ev1 ++ [Event.errorLoadModel ("Failed to load model: " ++ e)], Outcome.stopped)
    | .ok model =>
      match create_spectrogram env.specParams st1 name with
      | .error err => (ev1, Outcome.raised err)
      | .ok sp =>
        let ev2 := ev1 ++ [Event.specImage, Event.classHeader]
        match predictions sp.2 model with
        | .error err => (ev2, Outcome.raised err)
        | .ok lp =>
          if lp.1 < class_names.length then
            let ev3 := ev2 ++ [Event.classification lp.1]
            if env.buttonClicked then
              let ev4 := ev3 ++ [Event.limeHeader]
              match lime_predict sp.2 model env.explainer with
              | .error err => (ev4, Outcome.raised err)
              | .ok _ =>
                let ev5 := ev4 ++ [Event.limeFig, Event.gradHeader]
                match grad_predict env.gradModel sp.2 lp.2 lp.1 with
                | .error err => (ev5, Outcome.raised err)
                | .ok _ => (ev5 ++ [Event.gradFig], Outcome.done)
            else (ev3, Outcome.done)
          else (ev2, Outcome.raised AppError.indexError)

/-- The classification stage of homepage as a composition, used to state
hypotheses about a run without naming the intermediate image. -/
def stageSpec (env : Env) (name : String) (audio : AudioData) :
    Except AppError (SpecState × Image) :=
  create_spectrogram env.specParams (save_file env.specState name audio) name

/-!  Concrete instances of the external components, used to evaluate the
theorems on explicit inputs.  They play the role librosa, matplotlib and
the keras models play at run time: any conforming instance would do. -/

/-- Concrete instance of the librosa mel-spectrogram shape: 128 mel bands
by one frame per 512 samples, each entry a windowed signal energy.  A zero
signal yields an all-zero matrix, and the matrix is never empty. -/
def melspecW (y : List ℚ) (sr : ℤ) : List (List ℚ) :=
  let frames := y.length / 512 + 1
  (List.range 128).map (fun _ =>
    (List.range frames).map (fun t =>
      (((y.drop (t * 512)).take 2048).map (fun v => v * v)).sum))

/-- Concrete instance of the elementwise power-to-db rescaling relative to
the reference maximum. -/
def dbW (v ref : ℚ) : ℚ := v - ref

/-- Concrete instance of the specshow colormap: a grayscale ramp. -/
def cmapW (v : ℚ) : RGB := ⟨v, v, v⟩

/-- Concrete feature-extractor parameters for evaluating the theorems. -/
def specParamsW : SpecParams := ⟨melspecW, dbW, cmapW⟩

/-- An eight-sample silent (all-zero) waveform at 16 kHz. -/
def silentAudio : AudioData := ⟨List.replicate 8 0, 16000⟩

/-- Eight samples of a sine-like oscillation at 16 kHz. -/
def sineAudio : AudioData :=
  ⟨[0, 7/10, 1, 7/10, 0, -7/10, -1, -7/10], 16000⟩

/-- A state whose audio_files directory holds the silent file z.wav and
the sine file s.wav, with a stale scratch file left over. -/
def stW : SpecState :=
  { fs := fun p =>
      if p = "audio_files/z.wav" then some silentAudio
      else if p = "audio_files/s.wav" then some sineAudio
      else none
    scratch := some [[⟨1, 2, 3⟩]] }

/-- The same audio files as stW but a different directory layout elsewhere
and a different scratch file. -/
def stW' : SpecState :=
  { fs := fun p =>
      if p = "audio_files/z.wav" then some silentAudio
      else if p = "audio_files/s.wav" then some sineAudio
      else if p = "audio_files/other.wav" then some sineAudio
      else none
    scratch := none }

/-!  Helper lemmas about the resampling step. -/

/-- resizeNN always produces exactly h rows. -/
theorem resizeNN_length {α : Type} (src : List (List α)) (h w : ℕ) (d : α) :
    (resizeNN src h w d).length = h := by
  simp [resizeNN]

/-- Every row resizeNN produces has exactly w entries. -/
theorem resizeNN_row_length {α : Type} (src : List (List α)) (h w : ℕ) (d : α) :
    ∀ row ∈ resizeNN src h w d, row.length = w := by
  intro row hr
  simp only [resizeNN, List.mem_map, List.mem_range] at hr
  obtain ⟨i, _, rfl⟩ := hr
  simp

/-- C2 (amended): create_spectrogram performs no validation of the
waveform or the sampling rate.  Whenever the audio file is present and
the mel spectrogram of its waveform is a nonempty matrix (which it is for
every waveform, silent or not, under the librosa transform of 128 mel
bands by at least one frame), the call succeeds and returns a
SpectralImage; in particular it never raises a FeatureExtractionError,
a kind that does not exist in the code. -/
theorem create_spectrogram_no_validation
    (p : SpecParams) (st : SpecState) (sound : String) (audio : AudioData)
    (hfs : st.fs ("audio_files/" ++ sound) = some audio)
    (hms : ((p.melspec audio.samples audio.sr).map List.length).sum ≠ 0) :
    exOk (create_spectrogram p st sound) = true := by
  simp only [create_spectrogram, hfs]
  rw [if_neg hms]
  rfl

/-- C2 witness: the amended statement evaluated on the silent all-zero
eight-sample waveform z.wav with concrete transform parameters. -/
theorem create_spectrogram_no_validation_witness :
    stW.fs ("audio_files/" ++ "z.wav") = some silentAudio ∧
    ((specParamsW.melspec silentAudio.samples silentAudio.sr).map List.length).sum ≠ 0 ∧
    exOk (create_spectrogram specParamsW stW "z.wav") = true :=
  ⟨rfl, by decide,
    create_spectrogram_no_validation specParamsW stW "z.wav" silentAudio rfl (by decide)⟩

/-- C2 counterexample: on the silent all-zero waveform stored as z.wav,
create_spectrogram succeeds and returns a SpectralImage instead of
failing, refuting the claim that a zero-dynamic-range waveform yields a
FeatureExtractionError and no image. -/
theorem create_spectrogram_silent_succeeds :
    exOk (create_spectrogram specParamsW stW "z.wav") = true := by
  rfl

/-- C3: two-run equivalence and noninterference of the feature extractor.
For any two program states that agree on the content of the requested
audio file, create_spectrogram returns the same image, whatever the rest
of the directory layout and whatever stale scratch file is present; with
fixed transform parameters the result is a function of the waveform and
sampling rate alone.  The embedding has no clock or randomness in the
extractor, matching the code, so this is the full dependency set. -/
theorem create_spectrogram_deterministic
    (p : SpecParams) (st1 st2 : SpecState) (sound : String)
    (hfs : st1.fs ("audio_files/" ++ sound) = st2.fs ("audio_files/" ++ sound)) :
    specResult p st1 sound = specResult p st2 sound := by
  unfold specResult create_spectrogram
  rw [hfs]
  cases st2.fs ("audio_files/" ++ sound) with
  | none => rfl
  | some a =>
    dsimp only
    by_cases hc : ((p.melspec a.samples a.sr).map List.length).sum = 0
    · rw [if_pos hc, if_pos hc]
    · rw [if_neg hc, if_neg hc]
      rfl

/-- C3 witness: two concrete states with different directory layouts and
different scratch files but the same z.wav content produce the same
image. -/
theorem create_spectrogram_deterministic_witness :
    stW.fs ("audio_files/" ++ "z.wav") = stW'.fs ("audio_files/" ++ "z.wav") ∧
    specResult specParamsW stW "z.wav" = specResult specParamsW stW' "z.wav" :=
  ⟨rfl, create_spectrogram_deterministic specParamsW stW stW' "z.wav" rfl⟩

/-- C9: for any waveform whose mel spectrogram is nonempty (in particular
any nonempty waveform such as a one-second 16 kHz sine wave), the feature
extractor succeeds and the returned image has exactly 224 rows of 224
pixels, each pixel carrying three colour channels by the RGB pixel
type. -/
theorem create_spectrogram_output_shape
    (p : SpecParams) (st : SpecState) (sound : String) (audio : AudioData)
    (hfs : st.fs ("audio_files/" ++ sound) = some audio)
    (hms : ((p.melspec audio.samples audio.sr).map List.length).sum ≠ 0) :
    match create_spectrogram p st sound with
    | .ok r => r.2.length = 224 ∧ ∀ row ∈ r.2, row.length = 224
    | .error _ => False := by
  simp only [create_spectrogram, hfs]
  rw [if_neg hms]
  exact ⟨resizeNN_length _ _ _ _, resizeNN_row_length _ _ _ _⟩

/-- C9 witness: the shape statement evaluated on the sine-like waveform
stored as s.wav at 16 kHz. -/
theorem create_spectrogram_output_shape_witness :
    stW.fs ("audio_files/" ++ "s.wav") = some sineAudio ∧
    ((specParamsW.melspec sineAudio.samples sineAudio.sr).map List.length).sum ≠ 0 ∧
    (match create_spectrogram specParamsW stW "s.wav" with
     | .ok r => r.2.length = 224 ∧ ∀ row ∈ r.2, row.length = 224
     | .error _ => False) :=
  ⟨rfl, by decide,
    create_spectrogram_output_shape specParamsW stW "s.wav" sineAudio rfl (by decide)⟩

/-!  Properties of the scanning argmax. -/

/-- Invariant of the argmax scan: either nothing in the remaining list
strictly beats the running best value, and the scan keeps the running
best index, or the scan lands on a position of the remaining list that
strictly beats the running best, is maximal in the remaining list and is
strictly above every earlier position of the remaining list. -/
theorem argmaxGo_spec (l : List ℚ) (i best : ℕ) (bv : ℚ) :
    (argmaxGo l i best bv = best ∧ ∀ j, j < l.length → l.getD j 0 ≤ bv) ∨
    (∃ k, k < l.length ∧ argmaxGo l i best bv = i + k ∧ bv < l.getD k 0 ∧
      (∀ j, j < l.length → l.getD j 0 ≤ l.getD k 0) ∧
      (∀ j, j < k → l.getD j 0 < l.getD k 0)) := by
  induction l generalizing i best bv with
  | nil => exact Or.inl ⟨rfl, by intro j hj; simp at hj⟩
  | cons v rest ih =>
    by_cases hv : bv < v
    · rw [argmaxGo, if_pos hv]
      rcases ih (i + 1) i v with ⟨heq, hle⟩ | ⟨k, hk, heq, hlt, hub, hstrict⟩
      · refine Or.inr ⟨0, by simp, by simpa using heq, by simpa using hv, ?_, ?_⟩
        · intro j hj
          cases j with
          | zero => simp
          | succ j =>
            simp only [List.getD_cons_succ, List.getD_cons_zero]
            exact hle j (by simpa using hj)
        · intro j hj
          omega
      · refine Or.inr ⟨k + 1, by simpa using hk, by rw [heq]; omega, ?_, ?_, ?_⟩
        · simpa using lt_trans hv hlt
        · intro j hj
          cases j with
          | zero =>
            simp only [List.getD_cons_succ, List.getD_cons_zero]
            exact le_of_lt hlt
          | succ j =>
            simp only [List.getD_cons_succ]
            exact hub j (by simpa using hj)
        · intro j hj
          cases j with
          | zero =>
            simp only [List.getD_cons_succ, List.getD_cons_zero]
            exact hlt
          | succ j =>
            simp only [List.getD_cons_succ]
            exact hstrict j (by omega)
    · rw [argmaxGo, if_neg hv]
      rcases ih (i + 1) best bv with ⟨heq, hle⟩ | ⟨k, hk, heq, hlt, hub, hstrict⟩
      · refine Or.inl ⟨heq, ?_⟩
        intro j hj
        cases j with
        | zero => simpa using le_of_not_lt hv
        | succ j =>
          simp only [List.getD_cons_succ]
          exact hle j (by simpa using hj)
      · refine Or.inr ⟨k + 1, by simpa using hk, by rw [heq]; omega, ?_, ?_, ?_⟩
        · simpa using hlt
        · intro j hj
          cases j with
          | zero =>
            simp only [List.getD_cons_succ, List.getD_cons_zero]
            exact le_of_lt (lt_of_le_of_lt (le_of_not_lt hv) hlt)
          | succ j =>
            simp only [List.getD_cons_succ]
            exact hub j (by simpa using hj)
        · intro j hj
          cases j with
          | zero =>
            simp only [List.getD_cons_succ, List.getD_cons_zero]
            exact lt_of_le_of_lt (le_of_not_lt hv) hlt
          | succ j =>
            simp only [List.getD_cons_succ]
            exact hstrict j (by omega)

/-- argmaxIdx of a nonempty list is in range, attains the maximum, and
every earlier position is strictly smaller, so ties resolve to the lowest
index. -/
theorem argmaxIdx_spec (l : List ℚ) (hl : l ≠ []) :
    argmaxIdx l < l.length ∧
    (∀ j, j < l.length → l.getD j 0 ≤ l.getD (argmaxIdx l) 0) ∧
    (∀ j, j < argmaxIdx l → l.getD j 0 < l.getD (argmaxIdx l) 0) := by
  cases l with
  | nil => exact absurd rfl hl
  | cons v rest =>
    rw [argmaxIdx]
    rcases argmaxGo_spec rest 1 0 v with ⟨heq, hle⟩ | ⟨k, hk, heq, hlt, hub, hstrict⟩
    · rw [heq]
      refine ⟨by simp, ?_, by intro j hj; omega⟩
      intro j hj
      cases j with
      | zero => simp
      | succ j =>
        simp only [List.getD_cons_succ, List.getD_cons_zero]
        exact hle j (by simpa using hj)
    · rw [heq]
      have h1k : (v :: rest).getD (1 + k) 0 = rest.getD k 0 := by
        rw [Nat.add_comm]
        simp [List.getD_cons_succ]
      refine ⟨by simp; omega, ?_, ?_⟩
      · intro j hj
        rw [h1k]
        cases j with
        | zero => simpa using le_of_lt hlt
        | succ j =>
          simp only [List.getD_cons_succ]
          exact hub j (by simpa using hj)
      · intro j hj
        rw [h1k]
        cases j with
        | zero => simpa using hlt
        | succ j =>
          simp only [List.getD_cons_succ]
          exact hstrict j (by omega)

/-- Inversion of a successful predictions call: the returned vector is
exactly the model output on the normalised batch, the label is its
flattened argmax, and the flattened output is nonempty. -/
theorem predictions_ok_inv (image : Image) (model : KModel) (lbl : ℕ)
    (pred : List (List ℚ)) (h : predictions image model = .ok (lbl, pred)) :
    pred = model.predict (inputBatch image) ∧
    lbl = argmaxIdx pred.flatten ∧ pred.flatten ≠ [] := by
  simp only [predictions] at h
  by_cases hc : (model.predict (inputBatch image)).flatten.isEmpty
  · rw [if_pos hc] at h
    exact absurd h (by simp)
  · rw [if_neg hc] at h
    injection h with h'
    rw [Prod.mk.injEq] at h'
    obtain ⟨h1, h2⟩ := h'
    subst h2
    refine ⟨rfl, h1.symm, ?_⟩
    simpa [List.isEmpty_iff] using hc

/-- A one-pixel test image with channels 10, 20, 30. -/
def imgPix : Image := [[⟨10, 20, 30⟩]]

/-- A classifier whose two class scores tie at one half. -/
def modelTie : KModel := ⟨fun _ => [[1/2, 1/2]]⟩

/-- A classifier with scores three fifths and two fifths. -/
def modelW : KModel := ⟨fun _ => [[3/5, 2/5]]⟩

/-- C6: the classifier adapter divides pixel values by 255 and does
nothing else before inference (the returned vector is the model output on
the batch consisting exactly of the divided image), the batch has size 1,
division keeps pixels of a 0..255 image inside 0..1, and the returned
label is the arg-max of the flattened probability vector with ties broken
in favour of the lowest class index: the label attains the maximum and
every lower index is strictly below it. -/
theorem predictions_spec
    (image : Image) (model : KModel) (lbl : ℕ) (pred : List (List ℚ))
    (hok : predictions image model = .ok (lbl, pred))
    (hpx : ∀ row ∈ image, ∀ px ∈ row,
      (0 ≤ px.r ∧ px.r ≤ 255) ∧ (0 ≤ px.g ∧ px.g ≤ 255) ∧ (0 ≤ px.b ∧ px.b ≤ 255)) :
    inputBatch image = [normImage image]
    ∧ (inputBatch image).length = 1
    ∧ pred = model.predict (inputBatch image)
    ∧ (∀ row ∈ normImage image, ∀ px ∈ row,
        (0 ≤ px.r ∧ px.r ≤ 1) ∧ (0 ≤ px.g ∧ px.g ≤ 1) ∧ (0 ≤ px.b ∧ px.b ≤ 1))
    ∧ lbl < pred.flatten.length
    ∧ (∀ j, j < pred.flatten.length →
        pred.flatten.getD j 0 ≤ pred.flatten.getD lbl 0)
    ∧ (∀ j, j < lbl → pred.flatten.getD j 0 < pred.flatten.getD lbl 0) := by
  obtain ⟨hpred, hlbl, hne⟩ := predictions_ok_inv image model lbl pred hok
  subst hpred
  subst hlbl
  obtain ⟨h1, h2, h3⟩ :=
    argmaxIdx_spec ((model.predict (inputBatch image)).flatten) hne
  refine ⟨rfl, rfl, rfl, ?_, h1, h2, h3⟩
  intro row hrow px hpx'
  simp only [normImage, List.mem_map] at hrow
  obtain ⟨row0, hrow0, rfl⟩ := hrow
  simp only [List.mem_map] at hpx'
  obtain ⟨px0, hpx0, rfl⟩ := hpx'
  obtain ⟨⟨hr0, hr1⟩, ⟨hg0, hg1⟩, ⟨hb0, hb1⟩⟩ := hpx row0 hrow0 px0 hpx0
  refine ⟨⟨?_, ?_⟩, ⟨?_, ?_⟩, ⟨?_, ?_⟩⟩ <;>
    first
      | exact div_nonneg (by assumption) (by norm_num)
      | exact (div_le_one (by norm_num)).mpr (by assumption)

/-- C6 witness: the classifier with tied scores on a one-pixel image
returns label 0, the lowest of the tied indices, and the batch and bounds
statements evaluate on that input. -/
theorem predictions_spec_witness :
    predictions imgPix modelTie = .ok (0, [[1/2, 1/2]]) ∧
    (inputBatch imgPix = [normImage imgPix]
      ∧ (inputBatch imgPix).length = 1
      ∧ [[(1/2 : ℚ), 1/2]] = modelTie.predict (inputBatch imgPix)
      ∧ (∀ row ∈ normImage imgPix, ∀ px ∈ row,
          (0 ≤ px.r ∧ px.r ≤ 1) ∧ (0 ≤ px.g ∧ px.g ≤ 1) ∧ (0 ≤ px.b ∧ px.b ≤ 1))
      ∧ 0 < ([[(1/2 : ℚ), 1/2]].flatten).length
      ∧ (∀ j, j < ([[(1/2 : ℚ), 1/2]].flatten).length →
          ([[(1/2 : ℚ), 1/2]].flatten).getD j 0 ≤ ([[(1/2 : ℚ), 1/2]].flatten).getD 0 0)
      ∧ (∀ j, j < 0 →
          ([[(1/2 : ℚ), 1/2]].flatten).getD j 0 < ([[(1/2 : ℚ), 1/2]].flatten).getD 0 0)) :=
  ⟨by norm_num [predictions, modelTie, argmaxIdx, argmaxGo],
    predictions_spec imgPix modelTie 0 [[1/2, 1/2]]
      (by norm_num [predictions, modelTie, argmaxIdx, argmaxGo])
      (by norm_num [imgPix])⟩

/-- C8: whenever the backend is conforming on this input, meaning its
output rows are nonnegative and sum to 1 within one part in one hundred
thousand, every row of the probability vector a successful predictions
call returns is nonnegative and sums to 1 within the same tolerance; the
adapter passes the model output through unchanged. -/
theorem predictions_prob_valid
    (image : Image) (model : KModel) (lbl : ℕ) (pred : List (List ℚ))
    (hok : predictions image model = .ok (lbl, pred))
    (hconf : ∀ row ∈ model.predict (inputBatch image),
      (∀ v ∈ row, 0 ≤ v) ∧ |row.sum - 1| ≤ 1 / 100000) :
    ∀ row ∈ pred, (∀ v ∈ row, 0 ≤ v) ∧ |row.sum - 1| ≤ 1 / 100000 := by
  obtain ⟨hpred, -, -⟩ := predictions_ok_inv image model lbl pred hok
  subst hpred
  exact hconf

/-- C8 witness: evaluated on the three-fifths two-fifths classifier. -/
theorem predictions_prob_valid_witness :
    predictions imgPix modelW = .ok (0, [[3/5, 2/5]]) ∧
    (∀ row ∈ modelW.predict (inputBatch imgPix),
      (∀ v ∈ row, 0 ≤ v) ∧ |row.sum - 1| ≤ 1 / 100000) ∧
    (∀ row ∈ [[(3/5 : ℚ), 2/5]], (∀ v ∈ row, 0 ≤ v) ∧ |row.sum - 1| ≤ 1 / 100000) :=
  ⟨by norm_num [predictions, modelW, argmaxIdx, argmaxGo],
    by norm_num [modelW],
    predictions_prob_valid imgPix modelW 0 [[3/5, 2/5]]
      (by norm_num [predictions, modelW, argmaxIdx, argmaxGo])
      (by norm_num [modelW])⟩

/-- C10: the class label lime_predict recomputes at src/app.py line 65 to
choose which class to explain is computed by the same pipeline as the
label predictions returns: divide by 255, batch of one, model.predict,
flattened arg-max.  For every image and every model backend the two
agree, including on the failure case of an empty model output, so the
LIME explanation is always rendered for the class reported to the
user. -/
theorem lime_label_agrees (image : Image) (model : KModel) :
    lime_class_label image model = (predictions image model).map Prod.fst := by
  simp only [lime_class_label, predictions]
  by_cases hc : (model.predict (inputBatch image)).flatten.isEmpty
  · rw [if_pos hc, if_pos hc]
    rfl
  · rw [if_neg hc, if_neg hc]
    rfl

/-- C7: for every successful lime_predict run, the region ids of the
explanation mask are a subset of the region ids of the superpixel
segmentation produced by the same explanation run, and at most
num_features equal 8 regions are selected. -/
theorem lime_mask_subset
    (image : Image) (model : KModel)
    (explFn : Image → Except AppError LimeExplanation)
    (expl : LimeExplanation) (lbl : ℕ) (mask : List ℕ)
    (hex : explFn (normImage image) = .ok expl)
    (hok : lime_predict image model explFn = .ok (lbl, mask)) :
    (∀ rid ∈ mask, rid ∈ expl.segments) ∧ mask.length ≤ 8 := by
  simp only [lime_predict, hex] at hok
  cases hll : lime_class_label image model with
  | error e =>
    rw [hll] at hok
    exact absurd hok (by simp)
  | ok cl =>
    rw [hll] at hok
    dsimp only at hok
    by_cases hc : cl < class_names.length
    · rw [if_pos hc] at hok
      injection hok with h'
      rw [Prod.mk.injEq] at h'
      obtain ⟨h1, h2⟩ := h'
      subst h1
      subst h2
      constructor
      · intro rid hrid
        simp only [List.mem_map] at hrid
        obtain ⟨p, hp, rfl⟩ := hrid
        exact expl.exp_mem _ p (List.mem_of_mem_take hp)
      · rw [List.length_map, List.length_take]
        exact min_le_left _ _
    · rw [if_neg hc] at hok
      exact absurd hok (by simp)

/-- A concrete lime explanation over four regions whose surrogate ranks
region 2 positively and region 0 negatively. -/
def explW : LimeExplanation where
  segments := [0, 1, 2, 3]
  local_exp := fun _ => [(2, 1), (0, -1)]
  exp_mem := by
    intro lbl p hp
    simp only [List.mem_cons, List.not_mem_nil, or_false] at hp
    rcases hp with rfl | rfl <;> simp

/-- A lime explainer that always returns explW. -/
def explFnW : Image → Except AppError LimeExplanation := fun _ => .ok explW

/-- C7 witness: on the one-pixel image with the three-fifths classifier,
lime_predict selects regions 2 and 0, a subset of the four segmentation
regions, and at most eight of them. -/
theorem lime_mask_subset_witness :
    explFnW (normImage imgPix) = .ok explW ∧
    lime_predict imgPix modelW explFnW = .ok (0, [2, 0]) ∧
    ((∀ rid ∈ ([2, 0] : List ℕ), rid ∈ explW.segments) ∧ ([2, 0] : List ℕ).length ≤ 8) :=
  ⟨rfl,
    by norm_num [lime_predict, lime_class_label, modelW, explFnW, explW,
      argmaxIdx, argmaxGo, class_names],
    lime_mask_subset imgPix modelW explFnW explW 0 [2, 0] rfl
      (by norm_num [lime_predict, lime_class_label, modelW, explFnW, explW,
        argmaxIdx, argmaxGo, class_names])⟩

/-!  Facts about the maximum and the resampling used by grad_predict. -/

/-- A left fold by max dominates its initial value and every element. -/
theorem le_foldl_max (l : List ℚ) (init : ℚ) :
    init ≤ l.foldl max init ∧ ∀ v ∈ l, v ≤ l.foldl max init := by
  induction l generalizing init with
  | nil => exact ⟨le_refl _, by intro v hv; simp at hv⟩
  | cons x rest ih =>
    obtain ⟨h1, h2⟩ := ih (max init x)
    refine ⟨le_trans (le_max_left _ _) h1, ?_⟩
    intro v hv
    rcases List.mem_cons.mp hv with rfl | hv'
    · exact le_trans (le_max_right _ _) h1
    · exact h2 v hv'

/-- Every entry of a matrix is at most matMax of the matrix. -/
theorem matMax_ub (m : List (List ℚ)) : ∀ v ∈ m.flatten, v ≤ matMax m :=
  (le_foldl_max m.flatten (m.flatten.headD 0)).2

/-- A matrix with positive maximum is nonempty. -/
theorem matMax_pos_ne_nil (m : List (List ℚ)) (hm : 0 < matMax m) : m ≠ [] := by
  intro h
  subst h
  simp [matMax] at hm

/-- When the source raster is nonempty with nonempty rows, every entry of
the resampled raster is an entry of some source row. -/
theorem resizeNN_mem {α : Type} (src : List (List α)) (h w : ℕ) (d : α)
    (hs : src ≠ []) (hrows : ∀ r ∈ src, r ≠ []) :
    ∀ row ∈ resizeNN src h w d, ∀ v ∈ row, ∃ r ∈ src, v ∈ r := by
  intro row hrow v hv
  simp only [resizeNN, List.mem_map, List.mem_range] at hrow
  obtain ⟨i, hi, rfl⟩ := hrow
  simp only [List.mem_map, List.mem_range] at hv
  obtain ⟨j, hj, rfl⟩ := hv
  have hlen : 0 < src.length := List.length_pos.mpr hs
  have hidx : i * src.length / h < src.length := by
    refine (Nat.div_lt_iff_lt_mul (by omega)).mpr ?_
    rw [Nat.mul_comm src.length h]
    exact (Nat.mul_lt_mul_right hlen).mpr hi
  have hrowmem : src.getD (i * src.length / h) [] ∈ src := by
    rw [List.getD_eq_getElem src [] hidx]
    exact List.getElem_mem hidx
  refine ⟨src.getD (i * src.length / h) [], hrowmem, ?_⟩
  have hrlen : 0 < (src.getD (i * src.length / h) []).length :=
    List.length_pos.mpr (hrows _ hrowmem)
  have hjdx : j * (src.getD (i * src.length / h) []).length / w
      < (src.getD (i * src.length / h) []).length := by
    refine (Nat.div_lt_iff_lt_mul (by omega)).mpr ?_
    rw [Nat.mul_comm (src.getD (i * src.length / h) []).length w]
    exact (Nat.mul_lt_mul_right hrlen).mpr hj
  rw [List.getD_eq_getElem _ d hjdx]
  exact List.getElem_mem hjdx

/-- When the unclamped heatmap maximum is positive, every entry of the
normalised heatmap is a defined value between 0 and 1. -/
theorem normalizeHeatmap_bounds (m : List (List ℚ)) (hm : 0 < matMax m) :
    ∀ row ∈ normalizeHeatmap m, ∀ v ∈ row, ∃ q, v = some q ∧ 0 ≤ q ∧ q ≤ 1 := by
  intro row hrow v hv
  simp only [normalizeHeatmap, List.mem_map] at hrow
  obtain ⟨row0, hrow0, rfl⟩ := hrow
  simp only [List.mem_map] at hv
  obtain ⟨v0, hv0, rfl⟩ := hv
  rw [if_neg (ne_of_gt hm)]
  refine ⟨_, rfl, ?_, ?_⟩
  · exact div_nonneg (le_max_right _ _) hm.le
  · refine (div_le_one hm).mpr (max_le ?_ hm.le)
    exact matMax_ub m v0 (List.mem_flatten.mpr ⟨row0, hrow0, hv0⟩)

/-- C4: whenever grad_predict receives a class index outside the fixed
two-class vocabulary, it fails with a definite error kind and never
returns a saliency map: IndexError from the class-name lookup used for
the figure title when the index is still inside the 1000-entry
reference-network output, and the out-of-range gather error otherwise. -/
theorem grad_predict_oob (gm : GradModel) (image : Image)
    (preds0 : List (List ℚ)) (idx : ℕ) (h : 2 ≤ idx) :
    grad_predict gm image preds0 idx =
      .error (if idx < (gm.preds (gm.preprocess image)).length then
        AppError.indexError else AppError.invalidArgument) := by
  simp only [grad_predict]
  by_cases hp : idx < (gm.preds (gm.preprocess image)).length
  · rw [if_pos hp, if_pos hp,
      if_neg (by simp only [class_names, List.length_cons, List.length_nil]; omega)]
  · rw [if_neg hp, if_neg hp]

/-- A reference network instance with a 1000-class output, one-by-one
spatial activation grid of a single channel with unit activation and unit
gradient, and identity preprocessing. -/
def gmOne : GradModel where
  preprocess := id
  convOut := fun _ => [[[1]]]
  preds := fun _ => List.replicate 1000 (mkRat 1 1000)
  gradTape := fun _ _ => [[[1]]]

/-- C4 witness: target class 5 is rejected with IndexError. -/
theorem grad_predict_oob_witness :
    2 ≤ 5 ∧
    grad_predict gmOne imgPix [] 5 =
      .error (if 5 < (gmOne.preds (gmOne.preprocess imgPix)).length then
        AppError.indexError else AppError.invalidArgument) :=
  ⟨by omega, grad_predict_oob gmOne imgPix [] 5 (by omega)⟩

/-- A reference network instance whose gradient and activation at the
designated layer are identically zero on the one-by-one grid, as happens
when the target class score is locally constant (for instance a saturated
softmax): preprocessing is the identity and the output has 1000
classes. -/
def gmZero : GradModel where
  preprocess := id
  convOut := fun _ => [[[0]]]
  preds := fun _ => List.replicate 1000 (mkRat 1 1000)
  gradTape := fun _ _ => [[[0]]]

/-- C1 counterexample: with identically-zero activations and gradients
the unclamped heatmap maximum is zero, the normalisation divides zero by
zero, and grad_predict succeeds while returning a saliency map every
entry of which is NaN (modelled as none): the values are undefined rather
than lying in 0..1.  This refutes the claim that the normalisation never
produces an undefined value for every input and target class. -/
theorem grad_saliency_nan :
    (match grad_predict gmZero imgPix [] 0 with
     | .ok out => Option.none ∈ out.flatten
     | .error _ => False) := by
  have hraw : rawHeatmap gmZero imgPix 0 = [[0]] := by
    norm_num [rawHeatmap, gmZero, weightedSum, pooledGrads, channelCount]
  have hnorm : normalizeHeatmap (rawHeatmap gmZero imgPix 0) = [[none]] := by
    rw [hraw]
    norm_num [normalizeHeatmap, matMax]
  simp only [grad_predict]
  rw [if_pos (by simp [gmZero] : (0:ℕ) < (gmZero.preds (gmZero.preprocess imgPix)).length),
    if_pos (by norm_num [class_names] : (0:ℕ) < class_names.length)]
  rw [hnorm]
  norm_num [resizeNN, gmZero, imgPix]

/-- C1 (amended): provided the unclamped heatmap has a strictly positive
maximum (so the division is by a positive number) and its rows are
nonempty (a rectangular activation grid), every saliency value
grad_predict returns for an in-range target class is a defined rational
in 0..1 and the resized map has exactly the spatial resolution of the
preprocessed input image, which equals the 224 by 224 input resolution
whenever preprocessing preserves shape.  Without the positive-maximum
hypothesis the claim fails, as the zero-heatmap counterexample shows. -/
theorem grad_saliency_bounded
    (gm : GradModel) (image : Image) (preds0 : List (List ℚ)) (idx : ℕ)
    (hm : 0 < matMax (rawHeatmap gm image idx))
    (hrows : ∀ row ∈ rawHeatmap gm image idx, row ≠ [])
    (hp : idx < (gm.preds (gm.preprocess image)).length)
    (hidx : idx < 2) :
    match grad_predict gm image preds0 idx with
    | .ok out =>
        (∀ row ∈ out, ∀ v ∈ row, ∃ q, v = some q ∧ 0 ≤ q ∧ q ≤ 1)
        ∧ out.length = (gm.preprocess image).length
        ∧ ∀ row ∈ out, row.length = ((gm.preprocess image).headD []).length
    | .error _ => False := by
  simp only [grad_predict]
  rw [if_pos hp, if_pos (show idx < class_names.length by
    simp only [class_names, List.length_cons, List.length_nil]; omega)]
  refine ⟨?_, resizeNN_length _ _ _ _, resizeNN_row_length _ _ _ _⟩
  have hne : normalizeHeatmap (rawHeatmap gm image idx) ≠ [] := by
    have := matMax_pos_ne_nil _ hm
    simpa [normalizeHeatmap, List.map_eq_nil_iff] using this
  have hrows' : ∀ r ∈ normalizeHeatmap (rawHeatmap gm image idx), r ≠ [] := by
    intro r hr
    simp only [normalizeHeatmap, List.mem_map] at hr
    obtain ⟨r0, hr0, rfl⟩ := hr
    simpa [List.map_eq_nil_iff] using hrows r0 hr0
  intro row hrow v hv
  obtain ⟨r, hr, hvr⟩ := resizeNN_mem _ _ _ _ hne hrows' row hrow v hv
  exact normalizeHeatmap_bounds _ hm r hr v hvr

/-- C1 witness: with unit activation and unit gradient the heatmap
maximum is 1 and the amended statement evaluates at target class 0. -/
theorem grad_saliency_bounded_witness :
    0 < matMax (rawHeatmap gmOne imgPix 0) ∧
    (match grad_predict gmOne imgPix [] 0 with
     | .ok out =>
         (∀ row ∈ out, ∀ v ∈ row, ∃ q, v = some q ∧ 0 ≤ q ∧ q ≤ 1)
         ∧ out.length = (gmOne.preprocess imgPix).length
         ∧ ∀ row ∈ out, row.length = ((gmOne.preprocess imgPix).headD []).length
     | .error _ => False) :=
  ⟨by norm_num [rawHeatmap, gmOne, weightedSum, pooledGrads, channelCount, matMax,
      List.range_succ],
    grad_saliency_bounded gmOne imgPix [] 0
      (by norm_num [rawHeatmap, gmOne, weightedSum, pooledGrads, channelCount, matMax,
        List.range_succ])
      (by norm_num [rawHeatmap, gmOne, weightedSum, pooledGrads, channelCount,
        List.range_succ])
      (by simp [gmOne])
      (by omega)⟩

/-- Case lemma for the orchestrator: when the spectrogram stage fails,
homepage raises exactly that error and renders no classification and no
explainer figure. -/
theorem homepage_spec_fail_case
    (env : Env) (name : String) (audio : AudioData) (model : KModel) (err : AppError)
    (hup : env.uploaded = some (name, audio))
    (hm : env.modelResult = .ok model)
    (h : stageSpec env name audio = .error err) :
    ∃ E, homepage env = (E, Outcome.raised err) ∧
      (∀ lbl, Event.classification lbl ∉ E) ∧
      Event.limeFig ∉ E ∧ Event.gradFig ∉ E := by
  have hs' : create_spectrogram env.specParams (save_file env.specState name audio) name
      = .error err := h
  refine ⟨[Event.line, Event.subheaderChoose, Event.playAudio, Event.audioPlayer],
    ?_, by simp, by simp, by simp⟩
  simp only [homepage, hup, hm, hs']
  rfl

/-- Case lemma for the orchestrator: when the classification stage (the
composition of spectrogram and predictions) fails, homepage raises
exactly that error and renders no classification and no explainer
figure. -/
theorem homepage_pred_fail_case
    (env : Env) (name : String) (audio : AudioData) (model : KModel) (err : AppError)
    (hup : env.uploaded = some (name, audio))
    (hm : env.modelResult = .ok model)
    (h : (stageSpec env name audio).bind (fun sp => predictions sp.2 model) = .error err) :
    ∃ E, homepage env = (E, Outcome.raised err) ∧
      (∀ lbl, Event.classification lbl ∉ E) ∧
      Event.limeFig ∉ E ∧ Event.gradFig ∉ E := by
  cases hs : stageSpec env name audio with
  | error e =>
    rw [hs] at h
    have h' : (Except.error e : Except AppError (ℕ × List (List ℚ))) = .error err := h
    injection h' with h''
    subst h''
    exact homepage_spec_fail_case env name audio model e hup hm hs
  | ok sp =>
    rw [hs] at h
    have h' : predictions sp.2 model = .error err := h
    have hs' : create_spectrogram env.specParams (save_file env.specState name audio) name
        = .ok sp := hs
    refine ⟨[Event.line, Event.subheaderChoose, Event.playAudio, Event.audioPlayer,
      Event.specImage, Event.classHeader], ?_, by simp, by simp, by simp⟩
    simp only [homepage, hup, hm, hs', h']
    rfl

/-- Case lemma for the orchestrator: when everything up to the reported
classification succeeds and lime_predict is the first failing component,
homepage raises exactly the lime error, the classification event is
retained, and neither explainer figure is rendered. -/
theorem homepage_lime_fail_case
    (env : Env) (name : String) (audio : AudioData) (model : KModel)
    (lp : ℕ × List (List ℚ)) (err : AppError)
    (hup : env.uploaded = some (name, audio))
    (hm : env.modelResult = .ok model)
    (hpred : (stageSpec env name audio).bind (fun sp => predictions sp.2 model) = .ok lp)
    (hlbl : lp.1 < class_names.length)
    (hbtn : env.buttonClicked = true)
    (hlime : (stageSpec env name audio).bind
      (fun sp => lime_predict sp.2 model env.explainer) = .error err) :
    ∃ E, homepage env = (E, Outcome.raised err) ∧
      Event.classification lp.1 ∈ E ∧
      Event.limeFig ∉ E ∧ Event.gradFig ∉ E := by
  cases hs : stageSpec env name audio with
  | error e =>
    rw [hs] at hpred
    exact absurd hpred (by simp [Except.bind])
  | ok sp =>
    rw [hs] at hpred hlime
    have hpred' : predictions sp.2 model = .ok lp := hpred
    have hlime' : lime_predict sp.2 model env.explainer = .error err := hlime
    have hs' : create_spectrogram env.specParams (save_file env.specState name audio) name
        = .ok sp := hs
    refine ⟨[Event.line, Event.subheaderChoose, Event.playAudio, Event.audioPlayer,
      Event.specImage, Event.classHeader, Event.classification lp.1, Event.limeHeader],
      ?_, by simp, by simp, by simp⟩
    simp only [homepage, hup, hm, hs', hpred', hbtn, if_pos hlbl, hlime', if_true]
    rfl

/-- Case lemma for the orchestrator: when everything up to and including
lime succeeds and grad_predict is the first failing component, homepage
raises exactly the Grad-CAM error while retaining both the
classification event and the already-rendered lime figure. -/
theorem homepage_grad_fail_case
    (env : Env) (name : String) (audio : AudioData) (model : KModel)
    (lp : ℕ × List (List ℚ)) (lr : ℕ × List ℕ) (err : AppError)
    (hup : env.uploaded = some (name, audio))
    (hm : env.modelResult = .ok model)
    (hpred : (stageSpec env name audio).bind (fun sp => predictions sp.2 model) = .ok lp)
    (hlbl : lp.1 < class_names.length)
    (hbtn : env.buttonClicked = true)
    (hlime : (stageSpec env name audio).bind
      (fun sp => lime_predict sp.2 model env.explainer) = .ok lr)
    (hgrad : (stageSpec env name audio).bind
      (fun sp => grad_predict env.gradModel sp.2 lp.2 lp.1) = .error err) :
    ∃ E, homepage env = (E, Outcome.raised err) ∧
      Event.classification lp.1 ∈ E ∧
      Event.limeFig ∈ E ∧ Event.gradFig ∉ E := by
  cases hs : stageSpec env name audio with
  | error e =>
    rw [hs] at hpred
    exact absurd hpred (by simp [Except.bind])
  | ok sp =>
    rw [hs] at hpred hlime hgrad
    have hpred' : predictions sp.2 model = .ok lp := hpred
    have hlime' : lime_predict sp.2 model env.explainer = .ok lr := hlime
    have hgrad' : grad_predict env.gradModel sp.2 lp.2 lp.1 = .error err := hgrad
    have hs' : create_spectrogram env.specParams (save_file env.specState name audio) name
        = .ok sp := hs
    refine ⟨[Event.line, Event.subheaderChoose, Event.playAudio, Event.audioPlayer,
      Event.specImage, Event.classHeader, Event.classification lp.1, Event.limeHeader,
      Event.limeFig, Event.gradHeader], ?_, by simp, by simp, by simp⟩
    simp only [homepage, hup, hm, hs', hpred', hbtn, if_pos hlbl, hlime', hgrad', if_true]
    rfl

/-- C5: homepage short-circuits on the first component failure after a
successful upload and model load, surfaces that failure kind unchanged,
and an explainer failure never invalidates the reported classification.
The four conjuncts cover every possible first failure location: a
spectrogram failure raises that kind with no classification reported; a
classification-stage failure raises that kind with no classification
reported; a lime_predict first failure raises that kind while the
classification event is retained and no explainer figure is rendered;
and a grad_predict first failure raises that kind while the
classification event and the lime figure are both retained. -/
theorem homepage_short_circuit
    (env : Env) (name : String) (audio : AudioData) (model : KModel)
    (hup : env.uploaded = some (name, audio))
    (hm : env.modelResult = .ok model) :
    (∀ err : AppError, stageSpec env name audio = .error err →
      ∃ E, homepage env = (E, Outcome.raised err) ∧
        (∀ lbl, Event.classification lbl ∉ E) ∧
        Event.limeFig ∉ E ∧ Event.gradFig ∉ E) ∧
    (∀ err : AppError,
      (stageSpec env name audio).bind (fun sp => predictions sp.2 model) = .error err →
      ∃ E, homepage env = (E, Outcome.raised err) ∧
        (∀ lbl, Event.classification lbl ∉ E) ∧
        Event.limeFig ∉ E ∧ Event.gradFig ∉ E) ∧
    (∀ (lp : ℕ × List (List ℚ)) (err : AppError),
      (stageSpec env name audio).bind (fun sp => predictions sp.2 model) = .ok lp →
      lp.1 < class_names.length → env.buttonClicked = true →
      (stageSpec env name audio).bind
        (fun sp => lime_predict sp.2 model env.explainer) = .error err →
      ∃ E, homepage env = (E, Outcome.raised err) ∧
        Event.classification lp.1 ∈ E ∧
        Event.limeFig ∉ E ∧ Event.gradFig ∉ E) ∧
    (∀ (lp : ℕ × List (List ℚ)) (lr : ℕ × List ℕ) (err : AppError),
      (stageSpec env name audio).bind (fun sp => predictions sp.2 model) = .ok lp →
      lp.1 < class_names.length → env.buttonClicked = true →
      (stageSpec env name audio).bind
        (fun sp => lime_predict sp.2 model env.explainer) = .ok lr →
      (stageSpec env name audio).bind
        (fun sp => grad_predict env.gradModel sp.2 lp.2 lp.1) = .error err →
      ∃ E, homepage env = (E, Outcome.raised err) ∧
        Event.classification lp.1 ∈ E ∧
        Event.limeFig ∈ E ∧ Event.gradFig ∉ E) :=
  ⟨fun err h => homepage_spec_fail_case env name audio model err hup hm h,
    fun err h => homepage_pred_fail_case env name audio model err hup hm h,
    fun lp err h1 h2 h3 h4 =>
      homepage_lime_fail_case env name audio model lp err hup hm h1 h2 h3 h4,
    fun lp lr err h1 h2 h3 h4 h5 =>
      homepage_grad_fail_case env name audio model lp lr err hup hm h1 h2 h3 h4 h5⟩

/-- A homepage environment: sine file uploaded, model loads, XAI button
pressed, but the lime explainer fails with a segmentation error. -/
def envW : Env where
  uploaded := some ("a.wav", sineAudio)
  modelResult := .ok modelW
  buttonClicked := true
  specState := { fs := fun _ => none, scratch := none }
  specParams := specParamsW
  explainer := fun _ => .error .segmentationError
  gradModel := gmOne

/-- A classifier backend returning an empty output batch, so np.argmax
raises. -/
def modelEmpty : KModel := ⟨fun _ => []⟩

/-- A reference network whose output vector is empty, so the class-score
gather fails for every index. -/
def gmEmpty : GradModel where
  preprocess := id
  convOut := fun _ => []
  preds := fun _ => []
  gradTape := fun _ _ => []

/-- Feature-extractor parameters whose mel transform yields an empty
matrix, so np.max raises inside create_spectrogram. -/
def specParamsEmpty : SpecParams := ⟨fun _ _ => [], dbW, cmapW⟩

/-- Like envW but with a working lime explainer and a failing Grad-CAM
reference network. -/
def envWgrad : Env :=
  { envW with explainer := fun _ => .ok explW, gradModel := gmEmpty }

/-- Like envW but with the empty-output classifier, so the
classification stage fails. -/
def envWpred : Env := { envW with modelResult := .ok modelEmpty }

/-- Like envW but with the degenerate mel transform, so the spectrogram
stage fails. -/
def envWspec : Env := { envW with specParams := specParamsEmpty }

/-- C5 witness: the four failure locations evaluated on concrete
environments.  In envW lime fails first and the segmentation error is
surfaced with the classification retained; in envWgrad lime succeeds and
grad_predict fails first, surfacing the gather error with both the
classification and the lime figure retained; in envWpred the
classification stage fails and its error is surfaced with nothing
reported; in envWspec the spectrogram stage fails likewise. -/
theorem homepage_short_circuit_witness :
    (envW.uploaded = some ("a.wav", sineAudio) ∧ envW.modelResult = .ok modelW ∧
      (∃ E, homepage envW = (E, Outcome.raised .segmentationError) ∧
        Event.classification 0 ∈ E ∧ Event.limeFig ∉ E ∧ Event.gradFig ∉ E)) ∧
    (envWgrad.uploaded = some ("a.wav", sineAudio) ∧ envWgrad.modelResult = .ok modelW ∧
      (∃ E, homepage envWgrad = (E, Outcome.raised .invalidArgument) ∧
        Event.classification 0 ∈ E ∧ Event.limeFig ∈ E ∧ Event.gradFig ∉ E)) ∧
    (envWpred.uploaded = some ("a.wav", sineAudio) ∧ envWpred.modelResult = .ok modelEmpty ∧
      (∃ E, homepage envWpred = (E, Outcome.raised .valueError) ∧
        (∀ lbl, Event.classification lbl ∉ E) ∧
        Event.limeFig ∉ E ∧ Event.gradFig ∉ E)) ∧
    (envWspec.uploaded = some ("a.wav", sineAudio) ∧ envWspec.modelResult = .ok modelW ∧
      (∃ E, homepage envWspec = (E, Outcome.raised .valueError) ∧
        (∀ lbl, Event.classification lbl ∉ E) ∧
        Event.limeFig ∉ E ∧ Event.gradFig ∉ E)) :=
  ⟨⟨rfl, rfl,
    (homepage_short_circuit envW "a.wav" sineAudio modelW rfl rfl).2.2.1
      (0, [[3/5, 2/5]]) .segmentationError (by with_unfolding_all rfl) (by decide) rfl
      (by with_unfolding_all rfl)⟩,
  ⟨rfl, rfl,
    (homepage_short_circuit envWgrad "a.wav" sineAudio modelW rfl rfl).2.2.2
      (0, [[3/5, 2/5]]) (0, [2, 0]) .invalidArgument (by with_unfolding_all rfl)
      (by decide) rfl (by with_unfolding_all rfl) (by with_unfolding_all rfl)⟩,
  ⟨rfl, rfl,
    (homepage_short_circuit envWpred "a.wav" sineAudio modelEmpty rfl rfl).2.1
      .valueError (by with_unfolding_all rfl)⟩,
  ⟨rfl, rfl,
    (homepage_short_circuit envWspec "a.wav" sineAudio modelW rfl rfl).1
      .valueError (by with_unfolding_all rfl)⟩⟩
